import Mathlib

/-!
Shallow embedding of the notification-service core
(src/services/notification.py, src/services/retry.py, src/models/schemas.py).

Modelling choices:
* UUIDs are modelled as `Nat` identifiers; the store is the list of
  notification rows, attempts are the list of attempt rows, and the Redis
  stream is the list of enqueued retry records.
* Provider behaviour is an environment function `Channel → Option SendOutcome`:
  `none` models a channel missing from the `self.providers` dict,
  `some .ok` a `send` that returns, `some (.fail e)` a `send` that raises
  an exception whose stringified form is `e`.
* The only unhandled exception source relevant to the claims is
  `redis.xadd`; `Env.queueFails` models it, and every operation returns its
  final committed state together with a Boolean `raised` flag (the Python
  code commits its DB writes before the `xadd`, so the state survives the
  exception).
* Wall-clock time is abstracted: `ServiceState.clock` stamps rows and
  attempts and is never advanced.
-/

namespace NotificationSvc

inductive Channel
  | email
  | sms
  | telegram
deriving DecidableEq, Repr, Fintype

inductive Status
  | pending
  | sent
  | failed
deriving DecidableEq, Repr, Fintype

/-- One row of the `notifications` table (src/models/orm.py, NotificationORM). -/
structure Notification where
  id : Nat
  recipient : String
  message : String
  status : Status
  channelUsed : Option Channel
  metadata : List (String × String)
  createdAt : Nat
deriving DecidableEq, Repr

/-- One row of the `notification_attempts` table (src/models/orm.py). -/
structure Attempt where
  notificationId : Nat
  channel : Channel
  timestamp : Nat
  success : Bool
  errorMessage : Option String
deriving DecidableEq, Repr

/-- One JSON payload on the Redis retry stream (src/services/notification.py,
`_enqueue_retry` / `retry_notification`). -/
structure RetryRecord where
  notificationId : Nat
  channels : List Channel
  attempt : Nat
deriving DecidableEq, Repr

/-- Result of one `provider.send` call: return or raise. -/
inductive SendOutcome
  | ok
  | fail (msg : String)
deriving DecidableEq, Repr

/-- Ambient configuration: the provider registry (`self.providers`), the
`max_retry_attempts` setting, and whether `redis.xadd` raises. -/
structure Env where
  providers : Channel → Option SendOutcome
  maxRetryAttempts : Nat
  queueFails : Bool

/-- The persistent state the service manipulates: DB rows plus the stream. -/
structure ServiceState where
  store : List Notification
  attempts : List Attempt
  queue : List RetryRecord
  nextId : Nat
  clock : Nat
deriving DecidableEq, Repr

/-- Row lookup by id, as in get_notification (src/services/notification.py). -/
def lookup (st : ServiceState) (nid : Nat) : Option Notification :=
  st.store.find? (fun n => n.id == nid)

def statusOf (st : ServiceState) (nid : Nat) : Option Status :=
  (lookup st nid).map Notification.status

def channelUsedOf (st : ServiceState) (nid : Nat) : Option (Option Channel) :=
  (lookup st nid).map Notification.channelUsed

/-- Mutate the row with id `nid` (the ORM object mutation + commit). -/
def updateNotification (st : ServiceState) (nid : Nat)
    (f : Notification → Notification) : ServiceState :=
  { st with store := st.store.map (fun n => if n.id = nid then f n else n) }

/-- Insert of a NotificationAttempt row plus commit. -/
def appendAttempt (st : ServiceState) (nid : Nat) (c : Channel)
    (succ : Bool) (err : Option String) : ServiceState :=
  { st with attempts := st.attempts ++ [⟨nid, c, st.clock, succ, err⟩] }

/-- The success transition: set status to `sent` and `channel_used` to the
channel, then commit (src/services/notification.py lines 123-125). -/
def markSent (st : ServiceState) (nid : Nat) (c : Channel) : ServiceState :=
  updateNotification st nid
    (fun n => { n with status := Status.sent, channelUsed := some c })

/-- Plain status assignment plus commit. -/
def setStatus (st : ServiceState) (nid : Nat) (s : Status) : ServiceState :=
  updateNotification st nid (fun n => { n with status := s })

/-- Embedding of `_enqueue_retry` (src/services/notification.py lines
168-192): xadd of a payload with hard-coded `attempt: 1`; the xadd may
raise (second component). -/
def enqueueRetry (env : Env) (nid : Nat) (channels : List Channel)
    (st : ServiceState) : ServiceState × Bool :=
  if env.queueFails then (st, true)
  else ({ st with queue := st.queue ++ [⟨nid, channels, 1⟩] }, false)

/-- The channel loop of `_attempt_delivery`
(src/services/notification.py lines 100-155).  Second component `true` means
the loop exited through the success `return`. -/
def deliverLoop (env : Env) (nid : Nat) :
    List Channel → ServiceState → ServiceState × Bool
  | [], st => (st, false)
  | c :: rest, st =>
    match env.providers c with
    | none => deliverLoop env nid rest st
    | some SendOutcome.ok =>
        (markSent (appendAttempt st nid c true none) nid c, true)
    | some (SendOutcome.fail e) =>
        deliverLoop env nid rest (appendAttempt st nid c false (some e))

/-- Embedding of `_attempt_delivery` (src/services/notification.py lines
88-166): run the
cascade; if the loop completes without success, mark the row failed and
enqueue a retry record carrying the full original channel list. -/
def attemptDelivery (env : Env) (nid : Nat) (channels : List Channel)
    (st : ServiceState) : ServiceState × Bool :=
  match deliverLoop env nid channels st with
  | (st1, true) => (st1, false)
  | (st1, false) => enqueueRetry env nid channels (setStatus st1 nid Status.failed)

/-- Request schema `NotificationCreate` (src/models/schemas.py lines 27-40). -/
structure NotificationCreate where
  recipient : String
  message : String
  channels : List Channel
  metadata : List (String × String)
deriving DecidableEq, Repr

/-- The pydantic field constraints of `NotificationCreate`: `message` has
`min_length=1, max_length=10000`, `channels` has `min_length=1`; `recipient`
carries no length constraint in the source. -/
def validNotificationCreate (r : NotificationCreate) : Bool :=
  1 ≤ r.message.length && r.message.length ≤ 10000 && 1 ≤ r.channels.length

/-- The freshly inserted row of `create_and_send`: `status=pending`,
`channel_used` unset. -/
def newRow (st : ServiceState) (data : NotificationCreate) : Notification :=
  { id := st.nextId, recipient := data.recipient, message := data.message,
    status := Status.pending, channelUsed := none,
    metadata := data.metadata, createdAt := st.clock }

/-- The row insertion of `create_and_send` (src/services/notification.py
lines 68-76). -/
def createNotification (st : ServiceState) (data : NotificationCreate) :
    Nat × ServiceState :=
  (st.nextId, { st with store := st.store ++ [newRow st data], nextId := st.nextId + 1 })

/-- Embedding of `create_and_send` (src/services/notification.py lines 55-86). -/
def createAndSend (env : Env) (data : NotificationCreate) (st : ServiceState) :
    (Nat × ServiceState) × Bool :=
  let p := createNotification st data
  let q := attemptDelivery env p.1 data.channels p.2
  ((p.1, q.1), q.2)

/-- Embedding of `retry_notification` (src/services/notification.py lines
212-267):
skip absent or already-sent rows; otherwise reset to pending, re-run the
cascade, and re-enqueue with `attempt+1` while still failed and under the cap. -/
def retryNotification (env : Env) (nid : Nat) (channels : List Channel)
    (attempt : Nat) (st : ServiceState) : ServiceState × Bool :=
  match lookup st nid with
  | none => (st, false)
  | some n =>
    if n.status = Status.sent then (st, false)
    else
      let st1 := setStatus st nid Status.pending
      let r := attemptDelivery env nid channels st1
      if r.2 then (r.1, true)
      else if statusOf r.1 nid = some Status.failed ∧ attempt < env.maxRetryAttempts then
        if env.queueFails then (r.1, true)
        else ({ r.1 with queue := r.1.queue ++ [⟨nid, channels, attempt + 1⟩] }, false)
      else (r.1, false)

/-- The POST route (src/api/routes.py, create_notification): pydantic
validation happens before the handler (422); an exception escaping the
handler is a server error; otherwise 201 with the created row. -/
inductive ApiResponse
  | created (nid : Nat)
  | unprocessable
  | serverError
deriving DecidableEq, Repr

def postNotification (env : Env) (r : NotificationCreate) (st : ServiceState) :
    ApiResponse × ServiceState :=
  if validNotificationCreate r then
    let q := createAndSend env r st
    if q.2 then (ApiResponse.serverError, q.1.2) else (ApiResponse.created q.1.1, q.1.2)
  else (ApiResponse.unprocessable, st)

/-- Holds when the provider registered for `c` would succeed. -/
def sendSucceeds (env : Env) (c : Channel) : Bool :=
  match env.providers c with
  | some SendOutcome.ok => true
  | _ => false

/-- The stringified exception recorded for a failing channel, if any. -/
def errMsg (env : Env) (c : Channel) : Option String :=
  match env.providers c with
  | some (SendOutcome.fail e) => some e
  | _ => none

/-- The failure attempt row the cascade records for channel `c`. -/
def failAttempt (env : Env) (st : ServiceState) (nid : Nat) (c : Channel) : Attempt :=
  ⟨nid, c, st.clock, false, errMsg env c⟩

/-! ### Basic lemmas about the store operations -/

theorem find?_map_ite (l : List Notification) (nid nid' : Nat)
    (f : Notification → Notification) (hf : ∀ n, (f n).id = n.id) :
    (l.map (fun n => if n.id = nid then f n else n)).find? (fun n => n.id == nid') =
      (l.find? (fun n => n.id == nid')).map (fun n => if n.id = nid then f n else n) := by
  induction l with
  | nil => rfl
  | cons a l ih =>
    have hid : (if a.id = nid then f a else a).id = a.id := by
      split
      · exact hf a
      · rfl
    by_cases ha : a.id = nid'
    · rw [List.map_cons,
        List.find?_cons_of_pos _ (by simp only [hid]; simp [ha]),
        List.find?_cons_of_pos _ (by simp [ha])]
      simp
    · rw [List.map_cons,
        List.find?_cons_of_neg _ (by simp only [hid]; simp [ha]),
        List.find?_cons_of_neg _ (by simp [ha]),
        ih]

theorem lookup_updateNotification (st : ServiceState) (nid nid' : Nat)
    (f : Notification → Notification) (hf : ∀ n, (f n).id = n.id) :
    lookup (updateNotification st nid f) nid' =
      (lookup st nid').map (fun n => if n.id = nid then f n else n) :=
  find?_map_ite st.store nid nid' f hf

theorem lookup_id (st : ServiceState) (nid : Nat) (n : Notification)
    (h : lookup st nid = some n) : n.id = nid := by
  have := List.find?_some h
  simpa using this

@[simp] theorem appendAttempt_store (st : ServiceState) (nid : Nat) (c : Channel)
    (s : Bool) (e : Option String) : (appendAttempt st nid c s e).store = st.store := rfl

@[simp] theorem appendAttempt_queue (st : ServiceState) (nid : Nat) (c : Channel)
    (s : Bool) (e : Option String) : (appendAttempt st nid c s e).queue = st.queue := rfl

@[simp] theorem appendAttempt_clock (st : ServiceState) (nid : Nat) (c : Channel)
    (s : Bool) (e : Option String) : (appendAttempt st nid c s e).clock = st.clock := rfl

@[simp] theorem appendAttempt_nextId (st : ServiceState) (nid : Nat) (c : Channel)
    (s : Bool) (e : Option String) : (appendAttempt st nid c s e).nextId = st.nextId := rfl

@[simp] theorem appendAttempt_attempts (st : ServiceState) (nid : Nat) (c : Channel)
    (s : Bool) (e : Option String) :
    (appendAttempt st nid c s e).attempts = st.attempts ++ [⟨nid, c, st.clock, s, e⟩] := rfl

@[simp] theorem lookup_appendAttempt (st : ServiceState) (nid : Nat) (c : Channel)
    (s : Bool) (e : Option String) (nid' : Nat) :
    lookup (appendAttempt st nid c s e) nid' = lookup st nid' := rfl

@[simp] theorem updateNotification_attempts (st : ServiceState) (nid : Nat)
    (f : Notification → Notification) : (updateNotification st nid f).attempts = st.attempts := rfl

@[simp] theorem updateNotification_queue (st : ServiceState) (nid : Nat)
    (f : Notification → Notification) : (updateNotification st nid f).queue = st.queue := rfl

@[simp] theorem updateNotification_clock (st : ServiceState) (nid : Nat)
    (f : Notification → Notification) : (updateNotification st nid f).clock = st.clock := rfl

@[simp] theorem updateNotification_nextId (st : ServiceState) (nid : Nat)
    (f : Notification → Notification) : (updateNotification st nid f).nextId = st.nextId := rfl

theorem lookup_markSent (st : ServiceState) (nid : Nat) (c : Channel) (nid' : Nat) :
    lookup (markSent st nid c) nid' =
      (lookup st nid').map
        (fun n => if n.id = nid then { n with status := Status.sent, channelUsed := some c } else n) :=
  lookup_updateNotification st nid nid' _ (fun _ => rfl)

theorem lookup_setStatus (st : ServiceState) (nid : Nat) (s : Status) (nid' : Nat) :
    lookup (setStatus st nid s) nid' =
      (lookup st nid').map (fun n => if n.id = nid then { n with status := s } else n) :=
  lookup_updateNotification st nid nid' _ (fun _ => rfl)

theorem statusOf_markSent (st : ServiceState) (nid : Nat) (c : Channel) (n : Notification)
    (h : lookup st nid = some n) : statusOf (markSent st nid c) nid = some Status.sent := by
  unfold statusOf
  rw [lookup_markSent, h]
  simp [lookup_id st nid n h]

theorem channelUsedOf_markSent (st : ServiceState) (nid : Nat) (c : Channel) (n : Notification)
    (h : lookup st nid = some n) : channelUsedOf (markSent st nid c) nid = some (some c) := by
  unfold channelUsedOf
  rw [lookup_markSent, h]
  simp [lookup_id st nid n h]

theorem statusOf_setStatus (st : ServiceState) (nid : Nat) (s : Status) (n : Notification)
    (h : lookup st nid = some n) : statusOf (setStatus st nid s) nid = some s := by
  unfold statusOf
  rw [lookup_setStatus, h]
  simp [lookup_id st nid n h]

/-! ### Characterization of the cascade loop -/

@[simp] theorem failAttempt_appendAttempt (env : Env) (st : ServiceState) (nid : Nat)
    (c : Channel) (s : Bool) (e : Option String) (nid' : Nat) :
    failAttempt env (appendAttempt st nid c s e) nid' = failAttempt env st nid' := rfl

theorem deliverLoop_queue (env : Env) (nid : Nat) :
    ∀ (l : List Channel) (st : ServiceState),
      (deliverLoop env nid l st).1.queue = st.queue := by
  intro l
  induction l with
  | nil => intro st; rfl
  | cons c rest ih =>
    intro st
    cases hp : env.providers c with
    | none => simp [deliverLoop, hp, ih]
    | some o =>
      cases o with
      | ok => simp [deliverLoop, hp, markSent]
      | fail e => simp [deliverLoop, hp, ih]

theorem deliverLoop_clock (env : Env) (nid : Nat) :
    ∀ (l : List Channel) (st : ServiceState),
      (deliverLoop env nid l st).1.clock = st.clock := by
  intro l
  induction l with
  | nil => intro st; rfl
  | cons c rest ih =>
    intro st
    cases hp : env.providers c with
    | none => simp [deliverLoop, hp, ih]
    | some o =>
      cases o with
      | ok => simp [deliverLoop, hp, markSent]
      | fail e => simp [deliverLoop, hp, ih]

theorem deliverLoop_nextId (env : Env) (nid : Nat) :
    ∀ (l : List Channel) (st : ServiceState),
      (deliverLoop env nid l st).1.nextId = st.nextId := by
  intro l
  induction l with
  | nil => intro st; rfl
  | cons c rest ih =>
    intro st
    cases hp : env.providers c with
    | none => simp [deliverLoop, hp, ih]
    | some o =>
      cases o with
      | ok => simp [deliverLoop, hp, markSent]
      | fail e => simp [deliverLoop, hp, ih]

/-- A channel with no registered provider is skipped: the loop state is
untouched and the cascade moves on (the `continue` at line 107). -/
theorem deliverLoop_skip (env : Env) (nid : Nat) (c : Channel) (rest : List Channel)
    (st : ServiceState) (h : env.providers c = none) :
    deliverLoop env nid (c :: rest) st = deliverLoop env nid rest st := by
  simp [deliverLoop, h]

/-- If no channel of the list succeeds, the loop falls through. -/
theorem deliverLoop_false_of_none_succeeds (env : Env) (nid : Nat) :
    ∀ (l : List Channel) (st : ServiceState),
      (∀ c ∈ l, sendSucceeds env c = false) →
      (deliverLoop env nid l st).2 = false := by
  intro l
  induction l with
  | nil => intro st _; rfl
  | cons c rest ih =>
    intro st h
    have hc := h c (List.mem_cons_self c rest)
    have hrest : ∀ c' ∈ rest, sendSucceeds env c' = false :=
      fun c' hc' => h c' (List.mem_cons_of_mem c hc')
    cases hp : env.providers c with
    | none => simp [deliverLoop, hp, ih _ hrest]
    | some o =>
      cases o with
      | ok => simp [sendSucceeds, hp] at hc
      | fail e => simp [deliverLoop, hp, ih _ hrest]

/-- When every channel of the list has a provider and every provider fails,
the loop appends exactly one failure attempt per channel, in order, and
touches nothing else. -/
theorem deliverLoop_all_fail (env : Env) (nid : Nat) :
    ∀ (l : List Channel) (st : ServiceState),
      (∀ c ∈ l, sendSucceeds env c = false ∧ (env.providers c).isSome) →
      deliverLoop env nid l st =
        ({ st with attempts := st.attempts ++ l.map (failAttempt env st nid) }, false) := by
  intro l
  induction l with
  | nil => intro st _; simp [deliverLoop]
  | cons c rest ih =>
    intro st h
    obtain ⟨hcf, hcp⟩ := h c (List.mem_cons_self c rest)
    have hrest : ∀ c' ∈ rest, sendSucceeds env c' = false ∧ (env.providers c').isSome :=
      fun c' hc' => h c' (List.mem_cons_of_mem c hc')
    cases hp : env.providers c with
    | none => simp [hp] at hcp
    | some o =>
      cases o with
      | ok => simp [sendSucceeds, hp] at hcf
      | fail e =>
        have step : deliverLoop env nid (c :: rest) st =
            deliverLoop env nid rest (appendAttempt st nid c false (some e)) := by
          simp [deliverLoop, hp]
        rw [step, ih _ hrest]
        simp [appendAttempt, failAttempt, errMsg, hp]

/-- When an all-failing (but provider-backed) block is followed by a
succeeding channel, the loop appends one failure attempt per failing channel,
then the success attempt, marks the row sent with that channel, and exits. -/
theorem deliverLoop_success (env : Env) (nid : Nat) :
    ∀ (fails : List Channel) (c0 : Channel) (post : List Channel) (st : ServiceState),
      (∀ c ∈ fails, sendSucceeds env c = false ∧ (env.providers c).isSome) →
      env.providers c0 = some SendOutcome.ok →
      deliverLoop env nid (fails ++ c0 :: post) st =
        (markSent
          { st with attempts := st.attempts ++ fails.map (failAttempt env st nid)
              ++ [⟨nid, c0, st.clock, true, none⟩] } nid c0, true) := by
  intro fails
  induction fails with
  | nil =>
    intro c0 post st _ h0
    simp [deliverLoop, h0, appendAttempt]
  | cons c rest ih =>
    intro c0 post st h h0
    obtain ⟨hcf, hcp⟩ := h c (List.mem_cons_self c rest)
    have hrest : ∀ c' ∈ rest, sendSucceeds env c' = false ∧ (env.providers c').isSome :=
      fun c' hc' => h c' (List.mem_cons_of_mem c hc')
    cases hp : env.providers c with
    | none => simp [hp] at hcp
    | some o =>
      cases o with
      | ok => simp [sendSucceeds, hp] at hcf
      | fail e =>
        have step : deliverLoop env nid ((c :: rest) ++ c0 :: post) st =
            deliverLoop env nid (rest ++ c0 :: post) (appendAttempt st nid c false (some e)) := by
          simp [deliverLoop, hp]
        rw [step, ih c0 post _ hrest h0]
        simp only [failAttempt_appendAttempt]
        simp [appendAttempt, failAttempt, errMsg, hp]

theorem providers_of_sendSucceeds (env : Env) (c : Channel)
    (h : sendSucceeds env c = true) : env.providers c = some SendOutcome.ok := by
  cases hp : env.providers c with
  | none => simp [sendSucceeds, hp] at h
  | some o =>
    cases o with
    | ok => rfl
    | fail e => simp [sendSucceeds, hp] at h

theorem attemptDelivery_of_loop_true (env : Env) (nid : Nat) (channels : List Channel)
    (st st1 : ServiceState) (h : deliverLoop env nid channels st = (st1, true)) :
    attemptDelivery env nid channels st = (st1, false) := by
  simp [attemptDelivery, h]

theorem attemptDelivery_of_loop_false (env : Env) (nid : Nat) (channels : List Channel)
    (st st1 : ServiceState) (h : deliverLoop env nid channels st = (st1, false)) :
    attemptDelivery env nid channels st =
      enqueueRetry env nid channels (setStatus st1 nid Status.failed) := by
  simp [attemptDelivery, h]

@[simp] theorem markSent_attempts (st : ServiceState) (nid : Nat) (c : Channel) :
    (markSent st nid c).attempts = st.attempts := rfl

@[simp] theorem markSent_queue (st : ServiceState) (nid : Nat) (c : Channel) :
    (markSent st nid c).queue = st.queue := rfl

@[simp] theorem markSent_clock (st : ServiceState) (nid : Nat) (c : Channel) :
    (markSent st nid c).clock = st.clock := rfl

@[simp] theorem markSent_nextId (st : ServiceState) (nid : Nat) (c : Channel) :
    (markSent st nid c).nextId = st.nextId := rfl

@[simp] theorem setStatus_attempts (st : ServiceState) (nid : Nat) (s : Status) :
    (setStatus st nid s).attempts = st.attempts := rfl

@[simp] theorem setStatus_queue (st : ServiceState) (nid : Nat) (s : Status) :
    (setStatus st nid s).queue = st.queue := rfl

@[simp] theorem setStatus_clock (st : ServiceState) (nid : Nat) (s : Status) :
    (setStatus st nid s).clock = st.clock := rfl

@[simp] theorem setStatus_nextId (st : ServiceState) (nid : Nat) (s : Status) :
    (setStatus st nid s).nextId = st.nextId := rfl

/-! ### Concrete fixtures for witnesses and counterexamples -/

def rowPending : Notification :=
  { id := 1, recipient := "user@example.com", message := "hello",
    status := Status.pending, channelUsed := none, metadata := [], createdAt := 0 }

def rowFailed : Notification := { rowPending with status := Status.failed }

def rowSent : Notification :=
  { rowPending with status := Status.sent, channelUsed := some Channel.email }

/-- A store holding one pending notification with no prior attempts. -/
def stPending : ServiceState :=
  { store := [rowPending], attempts := [], queue := [], nextId := 2, clock := 0 }

/-- A store holding one failed notification, as left by a failed first round
whose queued retry record has just been consumed by the worker. -/
def stFailed : ServiceState :=
  { store := [rowFailed],
    attempts := [⟨1, Channel.email, 0, false, some "smtp down"⟩],
    queue := [], nextId := 2, clock := 0 }

def emptyState : ServiceState :=
  { store := [], attempts := [], queue := [], nextId := 1, clock := 0 }

def envAllFail : Env :=
  { providers := fun _ => some (SendOutcome.fail "smtp down"),
    maxRetryAttempts := 3, queueFails := false }

def envMixed : Env :=
  { providers := fun c =>
      match c with
      | Channel.email => some (SendOutcome.fail "smtp down")
      | _ => some SendOutcome.ok,
    maxRetryAttempts := 3, queueFails := false }

def envAllOk : Env :=
  { providers := fun _ => some SendOutcome.ok, maxRetryAttempts := 3, queueFails := false }

def envNoEmail : Env :=
  { providers := fun c =>
      match c with
      | Channel.email => none
      | _ => some SendOutcome.ok,
    maxRetryAttempts := 3, queueFails := false }

def envQueueDown : Env :=
  { providers := fun _ => some (SendOutcome.fail "smtp down"),
    maxRetryAttempts := 3, queueFails := true }

def stSent : ServiceState :=
  { store := [rowSent],
    attempts := [⟨1, Channel.email, 0, true, none⟩],
    queue := [], nextId := 2, clock := 0 }

/-! ### Claims -/

/-- C3: for every notification, non-empty channel list and assignment of
provider outcomes, `_attempt_delivery` appends attempts in exact channel-list
order.  If the list splits as a failing block followed by the first
succeeding channel, the appended attempts are one failure per channel of the
block, in order, followed by the unique success attempt on that channel; the
row ends `sent` with `channel_used` equal to that channel, no later channel
is tried, and nothing is enqueued.  If every channel fails, one failure
attempt per channel is appended in order, the row ends `failed`, and exactly
one retry record with `attempt = 1` and the original channel list is
enqueued. -/
theorem cascade_round_spec (env : Env) (nid : Nat) (channels : List Channel)
    (st : ServiceState) (n : Notification)
    (hn : lookup st nid = some n)
    (_hne : channels ≠ [])
    (htot : ∀ c ∈ channels, (env.providers c).isSome)
    (hq : env.queueFails = false) :
    (∀ fails c0 post, channels = fails ++ c0 :: post →
        (∀ c ∈ fails, sendSucceeds env c = false) →
        sendSucceeds env c0 = true →
        (attemptDelivery env nid channels st).2 = false ∧
        (attemptDelivery env nid channels st).1.attempts =
          st.attempts ++ fails.map (failAttempt env st nid) ++ [⟨nid, c0, st.clock, true, none⟩] ∧
        statusOf (attemptDelivery env nid channels st).1 nid = some Status.sent ∧
        channelUsedOf (attemptDelivery env nid channels st).1 nid = some (some c0) ∧
        (attemptDelivery env nid channels st).1.queue = st.queue)
    ∧
    ((∀ c ∈ channels, sendSucceeds env c = false) →
        (attemptDelivery env nid channels st).2 = false ∧
        (attemptDelivery env nid channels st).1.attempts =
          st.attempts ++ channels.map (failAttempt env st nid) ∧
        statusOf (attemptDelivery env nid channels st).1 nid = some Status.failed ∧
        (attemptDelivery env nid channels st).1.queue = st.queue ++ [⟨nid, channels, 1⟩]) := by
  constructor
  · intro fails c0 post hch hf h0
    have h0' := providers_of_sendSucceeds env c0 h0
    have hfails : ∀ c ∈ fails, sendSucceeds env c = false ∧ (env.providers c).isSome := by
      intro c hc
      exact ⟨hf c hc, htot c (hch ▸ List.mem_append_left _ hc)⟩
    have hloop := deliverLoop_success env nid fails c0 post st hfails h0'
    rw [← hch] at hloop
    have hAD := attemptDelivery_of_loop_true env nid channels st _ hloop
    rw [hAD]
    have hlook : lookup
        { st with attempts := st.attempts ++ fails.map (failAttempt env st nid)
            ++ [⟨nid, c0, st.clock, true, none⟩] } nid = some n := hn
    exact ⟨rfl, rfl,
      statusOf_markSent _ nid c0 n hlook,
      channelUsedOf_markSent _ nid c0 n hlook, rfl⟩
  · intro hf
    have hfails : ∀ c ∈ channels, sendSucceeds env c = false ∧ (env.providers c).isSome :=
      fun c hc => ⟨hf c hc, htot c hc⟩
    have hloop := deliverLoop_all_fail env nid channels st hfails
    have hAD := attemptDelivery_of_loop_false env nid channels st _ hloop
    rw [hAD]
    have hlook : lookup
        { st with attempts := st.attempts ++ channels.map (failAttempt env st nid) } nid
        = some n := hn
    have hst := statusOf_setStatus _ nid Status.failed n hlook
    refine ⟨?_, ?_, ?_, ?_⟩
    · simp [enqueueRetry, hq]
    · simp [enqueueRetry, hq]
    · simp only [enqueueRetry, hq, Bool.false_eq_true, if_false]
      exact hst
    · simp [enqueueRetry, hq]

/-- Witness for C3 at a concrete input: email fails, sms succeeds. -/
theorem cascade_round_spec_witness :
    (attemptDelivery envMixed 1 [Channel.email, Channel.sms] stPending).2 = false ∧
    (attemptDelivery envMixed 1 [Channel.email, Channel.sms] stPending).1.attempts =
      stPending.attempts ++ [Channel.email].map (failAttempt envMixed stPending 1)
        ++ [⟨1, Channel.sms, stPending.clock, true, none⟩] ∧
    statusOf (attemptDelivery envMixed 1 [Channel.email, Channel.sms] stPending).1 1 =
      some Status.sent ∧
    channelUsedOf (attemptDelivery envMixed 1 [Channel.email, Channel.sms] stPending).1 1 =
      some (some Channel.sms) ∧
    (attemptDelivery envMixed 1 [Channel.email, Channel.sms] stPending).1.queue =
      stPending.queue :=
  (cascade_round_spec envMixed 1 [Channel.email, Channel.sms] stPending rowPending
      (by decide) (by decide) (by decide) rfl).1
    [Channel.email] Channel.sms [] rfl (by decide) (by decide)

/-- C1 (bug exhibit): a worker processing the retry record with `attempt = 1`
for a still-failing notification enqueues a record with `attempt = 1` again
(the unconditional `_enqueue_retry` inside `_attempt_delivery`) before the
`attempt = 2` record, so the `attempt` counter is not strictly greater than
the previously enqueued record's. -/
theorem retry_reenqueues_attempt_one :
    (retryNotification envAllFail 1 [Channel.email] 1 stFailed).1.queue =
      [⟨1, [Channel.email], 1⟩, ⟨1, [Channel.email], 2⟩] := by decide

/-- C2 (bug exhibit): a worker processing a retry with
`attempt = max_retry_attempts = 3` for a still-failing notification still
enqueues a fresh record with `attempt = 1` (so the queue does not drain at
the cap), though the guarded `attempt + 1` record is indeed not enqueued. -/
theorem retry_at_cap_still_enqueues :
    (retryNotification envAllFail 1 [Channel.email] 3 stFailed).1.queue =
      [⟨1, [Channel.email], 1⟩] := by decide

/-- C4 (counterexample): with no provider registered for email, a round over
[email, sms] records only the sms success attempt — no failure attempt for
email with error "no provider for email" is recorded. -/
theorem no_provider_records_no_attempt :
    (attemptDelivery envNoEmail 1 [Channel.email, Channel.sms] stPending).1.attempts =
      [⟨1, Channel.sms, 0, true, none⟩] ∧
    ((attemptDelivery envNoEmail 1 [Channel.email, Channel.sms] stPending).1.attempts.filter
      (fun a => a.channel == Channel.email)) = [] := by decide

/-- C4 (amended): a channel with no registered provider is skipped outright:
the loop state is untouched (no attempt is recorded) and the cascade
continues with the remaining channels; no retry record is enqueued on
account of the skip alone — if a later channel succeeds the queue stays
untouched. -/
theorem no_provider_skipped (env : Env) (nid : Nat) (c : Channel)
    (rest : List Channel) (st : ServiceState) (h : env.providers c = none) :
    deliverLoop env nid (c :: rest) st = deliverLoop env nid rest st ∧
    ((deliverLoop env nid rest st).2 = true →
      (attemptDelivery env nid (c :: rest) st).1.queue = st.queue) := by
  refine ⟨deliverLoop_skip env nid c rest st h, ?_⟩
  intro hsucc
  obtain ⟨st1, hloop⟩ : ∃ st1, deliverLoop env nid rest st = (st1, true) := by
    cases hr : deliverLoop env nid rest st with
    | mk a b =>
      rw [hr] at hsucc
      refine ⟨a, ?_⟩
      rw [show b = true from hsucc]
  have hloop' : deliverLoop env nid (c :: rest) st = (st1, true) :=
    (deliverLoop_skip env nid c rest st h).trans hloop
  rw [attemptDelivery_of_loop_true env nid (c :: rest) st st1 hloop']
  have hqu := deliverLoop_queue env nid rest st
  rw [hloop] at hqu
  exact hqu

/-- Witness for C4's amended statement: email unregistered, sms succeeding. -/
theorem no_provider_skipped_witness :
    deliverLoop envNoEmail 1 [Channel.email, Channel.sms] stPending =
      deliverLoop envNoEmail 1 [Channel.sms] stPending ∧
    ((deliverLoop envNoEmail 1 [Channel.sms] stPending).2 = true →
      (attemptDelivery envNoEmail 1 [Channel.email, Channel.sms] stPending).1.queue =
        stPending.queue) :=
  no_provider_skipped envNoEmail 1 Channel.email [Channel.sms] stPending rfl

/-- C5: a retry for an absent notification or one already `sent` changes
nothing — same store, attempts and queue, no exception; and re-processing a
retry record whose first processing left the notification `sent` returns the
state unchanged, so the final status equals that of processing it once. -/
theorem retry_skip_and_idempotent :
    (∀ env nid channels attempt st, lookup st nid = none →
        retryNotification env nid channels attempt st = (st, false)) ∧
    (∀ env nid channels attempt st n, lookup st nid = some n →
        n.status = Status.sent →
        retryNotification env nid channels attempt st = (st, false)) ∧
    (∀ env nid channels attempt st st1,
        retryNotification env nid channels attempt st = (st1, false) →
        statusOf st1 nid = some Status.sent →
        retryNotification env nid channels attempt st1 = (st1, false)) := by
  refine ⟨?_, ?_, ?_⟩
  · intro env nid channels attempt st h
    simp [retryNotification, h]
  · intro env nid channels attempt st n h hs
    simp [retryNotification, h, hs]
  · intro env nid channels attempt st st1 _ hsent
    obtain ⟨n1, hl, hs⟩ : ∃ n1, lookup st1 nid = some n1 ∧ n1.status = Status.sent := by
      unfold statusOf at hsent
      cases hl : lookup st1 nid with
      | none => rw [hl] at hsent; simp at hsent
      | some n1 =>
        rw [hl] at hsent
        exact ⟨n1, rfl, by simpa using hsent⟩
    simp [retryNotification, hl, hs]

/-- Witness for C5: retrying an already-sent notification is a no-op. -/
theorem retry_skip_witness :
    retryNotification envAllFail 1 [Channel.email] 1 stSent = (stSent, false) :=
  retry_skip_and_idempotent.2.1 envAllFail 1 [Channel.email] 1 stSent rowSent
    (by decide) (by decide)

/-- C9: on an empty channel list the engine appends no attempts, sets the
notification `failed`, and still enqueues one retry record with
`attempt = 1` and the empty channel list. -/
theorem empty_channel_list_round (env : Env) (nid : Nat) (st : ServiceState)
    (n : Notification) (hn : lookup st nid = some n) (hq : env.queueFails = false) :
    (attemptDelivery env nid [] st).2 = false ∧
    (attemptDelivery env nid [] st).1.attempts = st.attempts ∧
    statusOf (attemptDelivery env nid [] st).1 nid = some Status.failed ∧
    (attemptDelivery env nid [] st).1.queue = st.queue ++ [⟨nid, [], 1⟩] := by
  have hloop : deliverLoop env nid [] st = (st, false) := rfl
  rw [attemptDelivery_of_loop_false env nid [] st st hloop]
  have hst := statusOf_setStatus st nid Status.failed n hn
  refine ⟨?_, ?_, ?_, ?_⟩
  · simp [enqueueRetry, hq]
  · simp [enqueueRetry, hq]
  · simp only [enqueueRetry, hq, Bool.false_eq_true, if_false]
    exact hst
  · simp [enqueueRetry, hq]

/-- Witness for C9 at a concrete input. -/
theorem empty_channel_list_round_witness :
    (attemptDelivery envAllOk 1 [] stPending).2 = false ∧
    (attemptDelivery envAllOk 1 [] stPending).1.attempts = stPending.attempts ∧
    statusOf (attemptDelivery envAllOk 1 [] stPending).1 1 = some Status.failed ∧
    (attemptDelivery envAllOk 1 [] stPending).1.queue = stPending.queue ++ [⟨1, [], 1⟩] :=
  empty_channel_list_round envAllOk 1 stPending rowPending (by decide) rfl

/-! ### Queue-failure during enqueue (C6) and API validation (C8) -/

theorem find?_append_of_none_left (l1 l2 : List Notification) (p : Notification → Bool)
    (h : ∀ x ∈ l1, p x = false) : (l1 ++ l2).find? p = l2.find? p := by
  induction l1 with
  | nil => rfl
  | cons a l ih =>
    rw [List.cons_append,
      List.find?_cons_of_neg _ (by simp [h a (List.mem_cons_self a l)])]
    exact ih (fun x hx => h x (List.mem_cons_of_mem a hx))

/-- The freshly created row is what lookup by the fresh id returns. -/
theorem lookup_createNotification (st : ServiceState) (data : NotificationCreate)
    (hfresh : ∀ n ∈ st.store, n.id ≠ st.nextId) :
    lookup (createNotification st data).2 st.nextId = some (newRow st data) := by
  unfold lookup createNotification
  rw [find?_append_of_none_left _ _ _ (by intro x hx; simp [hfresh x hx])]
  simp [newRow]

/-- A loop that falls through (no success) never touched the store. -/
theorem deliverLoop_store_of_false (env : Env) (nid : Nat) :
    ∀ (l : List Channel) (st : ServiceState),
      (deliverLoop env nid l st).2 = false →
      (deliverLoop env nid l st).1.store = st.store := by
  intro l
  induction l with
  | nil => intro st _; rfl
  | cons c rest ih =>
    intro st hf
    cases hp : env.providers c with
    | none =>
      rw [deliverLoop_skip env nid c rest st hp] at hf ⊢
      exact ih st hf
    | some o =>
      cases o with
      | ok => simp [deliverLoop, hp] at hf
      | fail e =>
        have hstep : deliverLoop env nid (c :: rest) st =
            deliverLoop env nid rest (appendAttempt st nid c false (some e)) := by
          simp [deliverLoop, hp]
        rw [hstep] at hf ⊢
        exact ih _ hf

/-- C6 (counterexample): with every provider failing and the queue down,
`create_and_send` raises to the caller instead of returning the failed
notification: the `xadd` exception is not caught anywhere in
`_enqueue_retry` / `_attempt_delivery` / `create_and_send`. -/
theorem queue_failure_raises_concrete :
    (createAndSend envQueueDown
      ⟨"user@example.com", "hello", [Channel.email], []⟩ emptyState).2 = true ∧
    statusOf (createAndSend envQueueDown
      ⟨"user@example.com", "hello", [Channel.email], []⟩ emptyState).1.2 1 =
      some Status.failed := by decide

/-- C6 (amended): when every channel fails and the retry enqueue itself
fails, the exception propagates out of `create_and_send` (the caller gets an
error, not the notification); the notification is nevertheless left `failed`
in the store. -/
theorem enqueue_failure_raises (env : Env) (data : NotificationCreate)
    (st : ServiceState)
    (hfresh : ∀ n ∈ st.store, n.id ≠ st.nextId)
    (hfail : ∀ c ∈ data.channels, sendSucceeds env c = false)
    (hq : env.queueFails = true) :
    (createAndSend env data st).2 = true ∧
    statusOf (createAndSend env data st).1.2 st.nextId = some Status.failed := by
  have hlookup := lookup_createNotification st data hfresh
  have hADfst : (createAndSend env data st).1.2 =
      (attemptDelivery env st.nextId data.channels (createNotification st data).2).1 := rfl
  have hADsnd : (createAndSend env data st).2 =
      (attemptDelivery env st.nextId data.channels (createNotification st data).2).2 := rfl
  cases hr : deliverLoop env st.nextId data.channels (createNotification st data).2 with
  | mk st1 b =>
    have hb : b = false := by
      have := deliverLoop_false_of_none_succeeds env st.nextId data.channels
        (createNotification st data).2 hfail
      rw [hr] at this
      exact this
    subst hb
    have hAD := attemptDelivery_of_loop_false env st.nextId data.channels
      (createNotification st data).2 st1 hr
    have hstore : st1.store = (createNotification st data).2.store := by
      have := deliverLoop_store_of_false env st.nextId data.channels
        (createNotification st data).2 (by rw [hr])
      rw [hr] at this
      exact this
    have hlook1 : lookup st1 st.nextId = some (newRow st data) := by
      unfold lookup
      unfold lookup at hlookup
      rw [hstore]
      exact hlookup
    have hstatus := statusOf_setStatus st1 st.nextId Status.failed (newRow st data) hlook1
    constructor
    · rw [hADsnd, hAD]
      simp [enqueueRetry, hq]
    · rw [hADfst, hAD]
      simp only [enqueueRetry, hq, if_true]
      exact hstatus

/-- Witness for C6's amended statement at a concrete input. -/
theorem enqueue_failure_raises_witness :
    (createAndSend envQueueDown
      ⟨"worker@example.com", "msg", [Channel.email, Channel.sms], []⟩ emptyState).2 = true ∧
    statusOf (createAndSend envQueueDown
      ⟨"worker@example.com", "msg", [Channel.email, Channel.sms], []⟩ emptyState).1.2 1 =
      some Status.failed :=
  enqueue_failure_raises envQueueDown
    ⟨"worker@example.com", "msg", [Channel.email, Channel.sms], []⟩ emptyState
    (by decide) (by decide) rfl

theorem valid_iff (r : NotificationCreate) :
    validNotificationCreate r = true ↔
      (1 ≤ r.message.length ∧ r.message.length ≤ 10000 ∧ 1 ≤ r.channels.length) := by
  simp [validNotificationCreate, Bool.and_eq_true, decide_eq_true_eq, and_assoc]

theorem valid_false_iff (r : NotificationCreate) :
    validNotificationCreate r = false ↔
      (r.message.length < 1 ∨ r.message.length > 10000 ∨ r.channels = []) := by
  have hcl : r.channels = [] ↔ r.channels.length = 0 := by
    constructor
    · intro h; simp [h]
    · intro h; exact List.length_eq_zero.mp h
  rw [← Bool.not_eq_true, valid_iff, hcl]
  omega

theorem post_unprocessable_iff (env : Env) (r : NotificationCreate) (st : ServiceState) :
    (postNotification env r st).1 = ApiResponse.unprocessable ↔
      validNotificationCreate r = false := by
  unfold postNotification
  by_cases hv : validNotificationCreate r = true
  · cases hb : (createAndSend env r st).2 <;> simp [hv, hb]
  · have hvf : validNotificationCreate r = false := by
      cases hb : validNotificationCreate r
      · rfl
      · exact absurd hb hv
    simp [hvf]

set_option maxRecDepth 4000 in
/-- C8 (counterexample): a create request whose recipient is 256 characters
long is not rejected with 422: validation passes and the API answers 201
(the pydantic model constrains `message` and `channels` but not the length
of `recipient`). -/
theorem long_recipient_accepted :
    (NotificationCreate.mk (String.mk (List.replicate 256 'a')) "hi" [Channel.email]
      []).recipient.length = 256 ∧
    (postNotification envAllOk
      (NotificationCreate.mk (String.mk (List.replicate 256 'a')) "hi" [Channel.email] [])
      emptyState).1 = ApiResponse.created 1 := by decide

/-- C8 (amended): the API boundary rejects with 422 exactly the requests
whose message is empty or longer than 10000 characters or whose channel list
is empty; the recipient's length is not validated, so every other request
(no matter how long its recipient) reaches the core and is not answered 422. -/
theorem validation_boundary (env : Env) (r : NotificationCreate) (st : ServiceState) :
    (postNotification env r st).1 = ApiResponse.unprocessable ↔
      (r.message.length < 1 ∨ r.message.length > 10000 ∨ r.channels = []) :=
  (post_unprocessable_iff env r st).trans (valid_false_iff r)

/-! ### Frame preservation (C10) -/

/-- The fields of a notification row the delivery engine never writes. -/
def frameOf (n : Notification) :
    Nat × String × String × List (String × String) × Nat :=
  (n.id, n.recipient, n.message, n.metadata, n.createdAt)

theorem frame_updateNotification (st : ServiceState) (nid : Nat)
    (f : Notification → Notification) (hf : ∀ n, frameOf (f n) = frameOf n) :
    (updateNotification st nid f).store.map frameOf = st.store.map frameOf := by
  unfold updateNotification
  rw [List.map_map]
  apply List.map_congr_left
  intro n _
  by_cases h : n.id = nid
  · simp [h, Function.comp, hf]
  · simp [h, Function.comp]

theorem deliverLoop_frame (env : Env) (nid : Nat) :
    ∀ (l : List Channel) (st : ServiceState),
      (deliverLoop env nid l st).1.store.map frameOf = st.store.map frameOf ∧
      ∃ new, (deliverLoop env nid l st).1.attempts = st.attempts ++ new := by
  intro l
  induction l with
  | nil => intro st; exact ⟨rfl, ⟨[], by simp [deliverLoop]⟩⟩
  | cons c rest ih =>
    intro st
    cases hp : env.providers c with
    | none =>
      rw [deliverLoop_skip env nid c rest st hp]
      exact ih st
    | some o =>
      cases o with
      | ok =>
        have hstep : deliverLoop env nid (c :: rest) st =
            (markSent (appendAttempt st nid c true none) nid c, true) := by
          simp [deliverLoop, hp]
        rw [hstep]
        constructor
        · exact frame_updateNotification (appendAttempt st nid c true none) nid _
            (fun n => rfl)
        · exact ⟨[⟨nid, c, st.clock, true, none⟩], rfl⟩
      | fail e =>
        have hstep : deliverLoop env nid (c :: rest) st =
            deliverLoop env nid rest (appendAttempt st nid c false (some e)) := by
          simp [deliverLoop, hp]
        rw [hstep]
        obtain ⟨hstore, new, hatt⟩ := ih (appendAttempt st nid c false (some e))
        refine ⟨hstore, ⟨⟨nid, c, st.clock, false, some e⟩ :: new, ?_⟩⟩
        rw [hatt]
        simp

theorem attemptDelivery_frame (env : Env) (nid : Nat) (channels : List Channel)
    (st : ServiceState) :
    (attemptDelivery env nid channels st).1.store.map frameOf = st.store.map frameOf ∧
    ∃ new, (attemptDelivery env nid channels st).1.attempts = st.attempts ++ new := by
  obtain ⟨hstore, new, hatt⟩ := deliverLoop_frame env nid channels st
  cases hr : deliverLoop env nid channels st with
  | mk st1 b =>
    rw [hr] at hstore hatt
    cases b with
    | true =>
      rw [attemptDelivery_of_loop_true env nid channels st st1 hr]
      exact ⟨hstore, ⟨new, hatt⟩⟩
    | false =>
      rw [attemptDelivery_of_loop_false env nid channels st st1 hr]
      have hset : (setStatus st1 nid Status.failed).store.map frameOf =
          st1.store.map frameOf :=
        frame_updateNotification st1 nid _ (fun n => rfl)
      unfold enqueueRetry
      split
      · exact ⟨hset.trans hstore, ⟨new, hatt⟩⟩
      · exact ⟨hset.trans hstore, ⟨new, hatt⟩⟩

/-- Every run of `retry_notification` either leaves the state untouched
(absent or already-sent row) or produces the delivery-round state with at
most the queue changed — and in the second case the row existed and was not
`sent`. -/
theorem retryNotification_cases (env : Env) (nid : Nat) (channels : List Channel)
    (attempt : Nat) (st : ServiceState) :
    (retryNotification env nid channels attempt st).1 = st ∨
    ((∃ n, lookup st nid = some n ∧ n.status ≠ Status.sent) ∧
      ∃ q, (retryNotification env nid channels attempt st).1 =
        { (attemptDelivery env nid channels (setStatus st nid Status.pending)).1
            with queue := q }) := by
  unfold retryNotification
  cases hl : lookup st nid with
  | none => exact Or.inl rfl
  | some n =>
    dsimp only
    by_cases hs : n.status = Status.sent
    · rw [if_pos hs]
      exact Or.inl rfl
    · rw [if_neg hs]
      refine Or.inr ⟨⟨n, rfl, hs⟩, ?_⟩
      dsimp only
      split
      · exact ⟨_, rfl⟩
      · split
        · split
          · exact ⟨_, rfl⟩
          · exact ⟨_, rfl⟩
        · exact ⟨_, rfl⟩

/-- C10: a delivery round and a retry round leave every stored row's `id`,
`recipient`, `message`, `metadata` and `created_at` unchanged (rows are
neither added nor removed; only `status` and `channel_used` may change) and
only ever append to the attempts table. -/
theorem rounds_touch_only_status_and_attempts (env : Env) (nid : Nat)
    (channels : List Channel) (attempt : Nat) (st : ServiceState) :
    ((attemptDelivery env nid channels st).1.store.map frameOf = st.store.map frameOf ∧
      ∃ new, (attemptDelivery env nid channels st).1.attempts = st.attempts ++ new) ∧
    ((retryNotification env nid channels attempt st).1.store.map frameOf =
        st.store.map frameOf ∧
      ∃ new, (retryNotification env nid channels attempt st).1.attempts =
        st.attempts ++ new) := by
  refine ⟨attemptDelivery_frame env nid channels st, ?_⟩
  rcases retryNotification_cases env nid channels attempt st with heq | ⟨_, q, heq⟩
  · rw [heq]
    exact ⟨rfl, ⟨[], by simp⟩⟩
  · rw [heq]
    obtain ⟨hstore, new, hatt⟩ :=
      attemptDelivery_frame env nid channels (setStatus st nid Status.pending)
    have hset : (setStatus st nid Status.pending).store.map frameOf =
        st.store.map frameOf :=
      frame_updateNotification st nid _ (fun n => rfl)
    exact ⟨hstore.trans hset, ⟨new, hatt⟩⟩

/-! ### The channel_used / status invariant (C7)

`serviceInv` strengthens the claimed invariant just enough to be inductive:
ids are pairwise distinct (the primary key), a row's `channel_used` is
non-null exactly when its status is `sent`, a non-null `channel_used` points
at the unique success attempt of the row, and a row that is not `sent` has
no success attempts at all. -/

def successAttempts (st : ServiceState) (nid : Nat) : List Attempt :=
  st.attempts.filter (fun a => a.notificationId == nid && a.success)

def rowInv (st : ServiceState) (n : Notification) : Prop :=
  ((n.channelUsed ≠ none) ↔ n.status = Status.sent) ∧
  (∀ c, n.channelUsed = some c →
    ∃ a ∈ successAttempts st n.id, successAttempts st n.id = [a] ∧ a.channel = c) ∧
  (n.channelUsed = none → successAttempts st n.id = [])

def serviceInv (st : ServiceState) : Prop :=
  (st.store.map Notification.id).Nodup ∧ ∀ n ∈ st.store, rowInv st n

instance rowInv_decidable (st : ServiceState) (n : Notification) :
    Decidable (rowInv st n) := by
  unfold rowInv
  infer_instance

instance serviceInv_decidable (st : ServiceState) : Decidable (serviceInv st) := by
  unfold serviceInv
  infer_instance

theorem successAttempts_updateNotification (st : ServiceState) (nid : Nat)
    (f : Notification → Notification) (nid' : Nat) :
    successAttempts (updateNotification st nid f) nid' = successAttempts st nid' := rfl

theorem successAttempts_append_fail (st : ServiceState) (nid : Nat) (c : Channel)
    (e : Option String) (nid' : Nat) :
    successAttempts (appendAttempt st nid c false e) nid' = successAttempts st nid' := by
  simp [successAttempts, appendAttempt, List.filter_append]

theorem successAttempts_append_ok (st : ServiceState) (nid : Nat) (c : Channel)
    (nid' : Nat) :
    successAttempts (appendAttempt st nid c true none) nid' =
      if nid = nid' then successAttempts st nid' ++ [⟨nid, c, st.clock, true, none⟩]
      else successAttempts st nid' := by
  by_cases h : nid = nid'
  · simp [successAttempts, appendAttempt, List.filter_append, h]
  · simp [successAttempts, appendAttempt, List.filter_append, h]

theorem ids_updateNotification (st : ServiceState) (nid : Nat)
    (f : Notification → Notification) (hf : ∀ n, (f n).id = n.id) :
    (updateNotification st nid f).store.map Notification.id =
      st.store.map Notification.id := by
  unfold updateNotification
  rw [List.map_map]
  apply List.map_congr_left
  intro n _
  by_cases h : n.id = nid
  · simp [h, Function.comp, hf]
  · simp [h, Function.comp]

theorem find?_id_of_nodup (l : List Notification) (n : Notification)
    (hnd : (l.map Notification.id).Nodup) (hmem : n ∈ l) :
    l.find? (fun m => m.id == n.id) = some n := by
  induction l with
  | nil => cases hmem
  | cons a l ih =>
    rw [List.map_cons, List.nodup_cons] at hnd
    rcases List.mem_cons.mp hmem with rfl | hmem'
    · exact List.find?_cons_of_pos _ (by simp)
    · have hne : a.id ≠ n.id := by
        intro h
        exact hnd.1 (h ▸ List.mem_map_of_mem Notification.id hmem')
      rw [List.find?_cons_of_neg _ (by simp [hne])]
      exact ih hnd.2 hmem'

theorem lookup_eq_of_nodup (st : ServiceState) (n : Notification)
    (hnd : (st.store.map Notification.id).Nodup) (hmem : n ∈ st.store) :
    lookup st n.id = some n :=
  find?_id_of_nodup st.store n hnd hmem

theorem rowInv_of_eq (st1 st2 : ServiceState) (n : Notification)
    (h : successAttempts st1 n.id = successAttempts st2 n.id)
    (hrow : rowInv st2 n) : rowInv st1 n := by
  obtain ⟨h1, h2, h3⟩ := hrow
  refine ⟨h1, ?_, ?_⟩
  · intro c hc
    rw [h]
    exact h2 c hc
  · intro hc
    rw [h]
    exact h3 hc

theorem row_not_sent_facts (st : ServiceState) (n : Notification)
    (hrow : rowInv st n) (hns : n.status ≠ Status.sent) :
    n.channelUsed = none ∧ successAttempts st n.id = [] := by
  obtain ⟨hiff, _, hnone⟩ := hrow
  have hcu : n.channelUsed = none := by
    by_contra h
    exact hns (hiff.mp h)
  exact ⟨hcu, hnone hcu⟩

theorem serviceInv_setStatus (st : ServiceState) (nid : Nat) (s : Status)
    (hs : s ≠ Status.sent) (hinv : serviceInv st)
    (hns : statusOf st nid ≠ some Status.sent) :
    serviceInv (setStatus st nid s) := by
  obtain ⟨hnd, hrows⟩ := hinv
  constructor
  · rw [setStatus, ids_updateNotification st nid
      (fun n => { n with status := s }) (fun n => rfl)]
    exact hnd
  · intro n' hn'
    have hn2 : n' ∈ st.store.map
        (fun n => if n.id = nid then { n with status := s } else n) := hn'
    obtain ⟨n, hn, rfl⟩ := List.mem_map.mp hn2
    by_cases hid : n.id = nid
    · rw [if_pos hid]
      have hlook : lookup st nid = some n := hid ▸ lookup_eq_of_nodup st n hnd hn
      have hnsent : n.status ≠ Status.sent := by
        intro hEq
        apply hns
        unfold statusOf
        rw [hlook]
        simp [hEq]
      obtain ⟨hcu, hsa⟩ := row_not_sent_facts st n (hrows n hn) hnsent
      refine ⟨by simp [hcu, hs], ?_, fun _ => hsa⟩
      intro c hc
      rw [show ({ n with status := s } : Notification).channelUsed = n.channelUsed
        from rfl, hcu] at hc
      cases hc
    · rw [if_neg hid]
      exact rowInv_of_eq _ st n rfl (hrows n hn)

/-- The success step of the loop preserves the invariant: append the success
attempt, then set `status=sent` and `channel_used=c` on the row. -/
theorem serviceInv_success_step (st : ServiceState) (nid : Nat) (c : Channel)
    (hinv : serviceInv st) (hns : statusOf st nid ≠ some Status.sent) :
    serviceInv (markSent (appendAttempt st nid c true none) nid c) := by
  obtain ⟨hnd, hrows⟩ := hinv
  constructor
  · rw [markSent, ids_updateNotification _ nid
      (fun n => { n with status := Status.sent, channelUsed := some c }) (fun n => rfl)]
    exact hnd
  · intro n' hn'
    have hn2 : n' ∈ st.store.map
        (fun n => if n.id = nid
          then { n with status := Status.sent, channelUsed := some c } else n) := hn'
    obtain ⟨n, hn, rfl⟩ := List.mem_map.mp hn2
    by_cases hid : n.id = nid
    · rw [if_pos hid]
      have hlook : lookup st nid = some n := hid ▸ lookup_eq_of_nodup st n hnd hn
      have hnsent : n.status ≠ Status.sent := by
        intro hEq
        apply hns
        unfold statusOf
        rw [hlook]
        simp [hEq]
      obtain ⟨hcu, hsa⟩ := row_not_sent_facts st n (hrows n hn) hnsent
      have hsucc : successAttempts (markSent (appendAttempt st nid c true none) nid c)
          ({ n with status := Status.sent, channelUsed := some c } : Notification).id =
          [⟨nid, c, st.clock, true, none⟩] := by
        show successAttempts (appendAttempt st nid c true none) n.id =
          [⟨nid, c, st.clock, true, none⟩]
        rw [successAttempts_append_ok, if_pos hid.symm, hsa]
        rfl
      refine ⟨by simp, ?_, ?_⟩
      · intro c' hc'
        have hcc : c = c' := by
          have : some c = some c' := hc'
          injection this
        subst hcc
        exact ⟨⟨nid, c, st.clock, true, none⟩, by rw [hsucc]; simp, hsucc, rfl⟩
      · intro hcu'
        exact absurd hcu' (by simp)
    · rw [if_neg hid]
      have heq : successAttempts (markSent (appendAttempt st nid c true none) nid c) n.id =
          successAttempts st n.id := by
        show successAttempts (appendAttempt st nid c true none) n.id = successAttempts st n.id
        rw [successAttempts_append_ok, if_neg (fun h => hid h.symm)]
      exact rowInv_of_eq _ st n heq (hrows n hn)

theorem serviceInv_deliverLoop (env : Env) (nid : Nat) :
    ∀ (l : List Channel) (st : ServiceState),
      serviceInv st → statusOf st nid ≠ some Status.sent →
      serviceInv (deliverLoop env nid l st).1 := by
  intro l
  induction l with
  | nil => intro st hinv _; exact hinv
  | cons c rest ih =>
    intro st hinv hns
    cases hp : env.providers c with
    | none =>
      rw [deliverLoop_skip env nid c rest st hp]
      exact ih st hinv hns
    | some o =>
      cases o with
      | ok =>
        have hstep : deliverLoop env nid (c :: rest) st =
            (markSent (appendAttempt st nid c true none) nid c, true) := by
          simp [deliverLoop, hp]
        rw [hstep]
        exact serviceInv_success_step st nid c hinv hns
      | fail e =>
        have hstep : deliverLoop env nid (c :: rest) st =
            deliverLoop env nid rest (appendAttempt st nid c false (some e)) := by
          simp [deliverLoop, hp]
        rw [hstep]
        refine ih _ ⟨hinv.1, ?_⟩ hns
        intro n hn
        exact rowInv_of_eq _ st n (successAttempts_append_fail st nid c (some e) n.id)
          (hinv.2 n hn)

theorem serviceInv_attemptDelivery (env : Env) (nid : Nat) (channels : List Channel)
    (st : ServiceState) (hinv : serviceInv st)
    (hns : statusOf st nid ≠ some Status.sent) :
    serviceInv (attemptDelivery env nid channels st).1 := by
  have hloop := serviceInv_deliverLoop env nid channels st hinv hns
  cases hr : deliverLoop env nid channels st with
  | mk st1 b =>
    rw [hr] at hloop
    cases b with
    | true =>
      rw [attemptDelivery_of_loop_true env nid channels st st1 hr]
      exact hloop
    | false =>
      have hstore : st1.store = st.store := by
        have := deliverLoop_store_of_false env nid channels st (by rw [hr])
        rw [hr] at this
        exact this
      have hns1 : statusOf st1 nid ≠ some Status.sent := by
        unfold statusOf lookup at hns ⊢
        rw [hstore]
        exact hns
      rw [attemptDelivery_of_loop_false env nid channels st st1 hr]
      have hset := serviceInv_setStatus st1 nid Status.failed (by decide) hloop hns1
      unfold enqueueRetry
      split
      · exact hset
      · exact ⟨hset.1, fun n hn => rowInv_of_eq _ _ n rfl (hset.2 n hn)⟩

theorem serviceInv_retryNotification (env : Env) (nid : Nat) (channels : List Channel)
    (attempt : Nat) (st : ServiceState) (hinv : serviceInv st) :
    serviceInv (retryNotification env nid channels attempt st).1 := by
  rcases retryNotification_cases env nid channels attempt st with heq | ⟨⟨n, hl, hs⟩, q, heq⟩
  · rw [heq]
    exact hinv
  · rw [heq]
    have hns : statusOf st nid ≠ some Status.sent := by
      unfold statusOf
      rw [hl]
      simp [hs]
    have h1 := serviceInv_setStatus st nid Status.pending (by decide) hinv hns
    have hns1 : statusOf (setStatus st nid Status.pending) nid ≠ some Status.sent := by
      rw [statusOf_setStatus st nid Status.pending n hl]
      simp
    have h2 := serviceInv_attemptDelivery env nid channels _ h1 hns1
    exact ⟨h2.1, fun m hm => rowInv_of_eq _ _ m rfl (h2.2 m hm)⟩

theorem serviceInv_create (st : ServiceState) (data : NotificationCreate)
    (hinv : serviceInv st)
    (hfresh : ∀ n ∈ st.store, n.id ≠ st.nextId)
    (hfreshA : ∀ a ∈ st.attempts, a.notificationId ≠ st.nextId) :
    serviceInv (createNotification st data).2 := by
  obtain ⟨hnd, hrows⟩ := hinv
  constructor
  · show ((st.store ++ [newRow st data]).map Notification.id).Nodup
    rw [List.map_append]
    refine List.Nodup.append hnd (by simp) ?_
    intro x hx hx2
    obtain ⟨m, hm, rfl⟩ := List.mem_map.mp hx
    have hne := hfresh m hm
    have : m.id = st.nextId := by simpa [newRow] using hx2
    exact hne this
  · intro n hn
    have hn2 : n ∈ st.store ++ [newRow st data] := hn
    rcases List.mem_append.mp hn2 with hmem | hmem
    · exact rowInv_of_eq _ st n rfl (hrows n hmem)
    · have hEq : n = newRow st data := by simpa using hmem
      subst hEq
      refine ⟨by simp [newRow], ?_, ?_⟩
      · intro c hc
        exact absurd hc (by simp [newRow])
      · intro _
        show st.attempts.filter
          (fun a => a.notificationId == (newRow st data).id && a.success) = []
        refine List.filter_eq_nil_iff.mpr ?_
        intro a ha
        simp [newRow, hfreshA a ha]

/-- C7: after create, after any delivery round, and after any retry round, a
notification's `channel_used` is non-null iff its `status` is `sent`, and
when non-null it equals the channel of the (unique) success attempt.
`serviceInv` packages exactly this per-row property together with
primary-key uniqueness and a no-success-attempt bound on non-sent rows,
which are needed for the statement to be inductive; each of the three
service operations preserves it (delivery rounds are invoked by the service
only on rows that are not `sent`, which the second conjunct assumes). -/
theorem channel_used_iff_sent_invariant :
    (∀ st data, serviceInv st → (∀ n ∈ st.store, n.id ≠ st.nextId) →
        (∀ a ∈ st.attempts, a.notificationId ≠ st.nextId) →
        serviceInv (createNotification st data).2) ∧
    (∀ env nid channels st, serviceInv st → statusOf st nid ≠ some Status.sent →
        serviceInv (attemptDelivery env nid channels st).1) ∧
    (∀ env nid channels attempt st, serviceInv st →
        serviceInv (retryNotification env nid channels attempt st).1) :=
  ⟨fun st data hinv h1 h2 => serviceInv_create st data hinv h1 h2,
   fun env nid channels st hinv hns => serviceInv_attemptDelivery env nid channels st hinv hns,
   fun env nid channels attempt st hinv => serviceInv_retryNotification env nid channels attempt st hinv⟩

/-- Witness for C7: the invariant holds concretely and is preserved at a
concrete input by each operation. -/
theorem channel_used_iff_sent_invariant_witness :
    serviceInv stPending ∧
    serviceInv (createNotification stPending
      ⟨"x@y.z", "hi", [Channel.email], []⟩).2 ∧
    serviceInv (attemptDelivery envMixed 1 [Channel.email, Channel.sms] stPending).1 ∧
    serviceInv (retryNotification envAllFail 1 [Channel.email] 1 stFailed).1 :=
  ⟨by decide,
   channel_used_iff_sent_invariant.1 stPending _ (by decide) (by decide) (by decide),
   channel_used_iff_sent_invariant.2.1 envMixed 1 [Channel.email, Channel.sms] stPending
     (by decide) (by decide),
   channel_used_iff_sent_invariant.2.2 envAllFail 1 [Channel.email] 1 stFailed (by decide)⟩

end NotificationSvc
